import Mathlib

/-!
Shallow embedding of the Modelibr Blender add-on's texture synchronization
core (`modelibr/async_handler.py` and `modelibr/texture_utils.py`), with
theorems settling the specification claims about it.

Python floats are modelled as `ℚ` (the clamping and channel arithmetic under
scrutiny is exact), Python `None`-able arguments as `Option`, Python dicts
with insertion-order semantics as association lists, and images as records
of the fields the code reads.
-/

namespace Modelibr

/-- `TaskStatus` enum from `async_handler.py`. -/
inductive TaskStatus where
  | PENDING
  | RUNNING
  | COMPLETED
  | FAILED
  | CANCELLED
deriving DecidableEq, Repr

/-- `ProgressState` dataclass from `async_handler.py`: status, progress in
`[0,1]`, message, error, and an opaque result payload (modelled as an
optional string). Defaults are the dataclass defaults. -/
structure ProgressState where
  status : TaskStatus := TaskStatus.PENDING
  progress : ℚ := 0
  message : String := ""
  error : String := ""
  result : Option String := none
deriving DecidableEq, Repr

/-- The state a fresh `ProgressTracker()` holds (`ProgressState()`). -/
def ProgressState.init : ProgressState := {}

/-- `ProgressTracker.update(progress?, message?, status?)`: each argument that
is not `None` overwrites the corresponding field; `progress` is clamped via
`min(1.0, max(0.0, progress))`. No other field is touched. -/
def update (progress : Option ℚ) (message : Option String)
    (status : Option TaskStatus) (s : ProgressState) : ProgressState :=
  let s1 :=
    match progress with
    | some p => { s with progress := min 1 (max 0 p) }
    | none => s
  let s2 :=
    match message with
    | some m => { s1 with message := m }
    | none => s1
  match status with
  | some st => { s2 with status := st }
  | none => s2

/-- `ProgressTracker.set_running(message)`: delegates to `update` with
progress 0 and status RUNNING. -/
def set_running (message : String) (s : ProgressState) : ProgressState :=
  update (some 0) (some message) (some TaskStatus.RUNNING) s

/-- `ProgressTracker.set_completed(result)`: sets status COMPLETED,
progress 1.0, message "Complete" and stores the result, unconditionally. -/
def set_completed (result : Option String) (s : ProgressState) : ProgressState :=
  { s with status := TaskStatus.COMPLETED, progress := 1, message := "Complete",
           result := result }

/-- `ProgressTracker.set_failed(error)`: sets status FAILED, the error field,
and the message, unconditionally. -/
def set_failed (error : String) (s : ProgressState) : ProgressState :=
  { s with status := TaskStatus.FAILED, error := error,
           message := "Error: " ++ error }

/-- `ProgressTracker.set_cancelled()`: delegates to `update` with message
"Cancelled" and status CANCELLED. -/
def set_cancelled (s : ProgressState) : ProgressState :=
  update none (some "Cancelled") (some TaskStatus.CANCELLED) s

/-- The terminal statuses, as tested by `ProgressTracker.is_finished`. -/
def TaskStatus.isTerminal : TaskStatus → Bool
  | TaskStatus.COMPLETED => true
  | TaskStatus.FAILED => true
  | TaskStatus.CANCELLED => true
  | _ => false

/-- `ProgressTracker.is_finished`: status is COMPLETED, FAILED or CANCELLED. -/
def is_finished (s : ProgressState) : Bool :=
  s.status.isTerminal

/-- The tail of `BackgroundTask._run_wrapper` after `run()` returns without
raising: `if not self.tracker.is_finished: self.tracker.set_completed()`. -/
def run_wrapper_finalize (s : ProgressState) : ProgressState :=
  if is_finished s then s else set_completed none s

/-- One call a client can make on a `ProgressTracker` (mutating ops only;
`get_state` copies and does not mutate). -/
inductive TrackerOp where
  | update (progress : Option ℚ) (message : Option String) (status : Option TaskStatus)
  | set_running (message : String)
  | set_completed (result : Option String)
  | set_failed (error : String)
  | set_cancelled
deriving Repr

/-- Apply one tracker operation to the state. -/
def TrackerOp.apply : TrackerOp → ProgressState → ProgressState
  | TrackerOp.update p m st, s => Modelibr.update p m st s
  | TrackerOp.set_running m, s => Modelibr.set_running m s
  | TrackerOp.set_completed r, s => Modelibr.set_completed r s
  | TrackerOp.set_failed e, s => Modelibr.set_failed e s
  | TrackerOp.set_cancelled, s => Modelibr.set_cancelled s

/-- Run a sequence of tracker operations from the initial state. -/
def runOps (ops : List TrackerOp) : ProgressState :=
  ops.foldl (fun s op => op.apply s) ProgressState.init

/-! ### Texture data model (`texture_utils.py`) -/

/-- One traced shader connection of an image, as recorded by
`analyze_material_textures` in its `image_connections` list. -/
structure Connection where
  channel : String
  texture_type : String
  via_separate : Bool
deriving DecidableEq, Repr

/-- The fields of a `bpy.types.Image` that the texture code reads: identity,
file path, size, flattened RGBA pixel buffer (row-major, bottom-up), the
packed-file payload if the image is embedded in the .blend, and the two
custom properties the add-on stores on it. -/
structure BlenderImage where
  name : String := ""
  filepath : String := ""
  width : Nat := 0
  height : Nat := 0
  pixels : List ℚ := []
  packed_data : Option String := none
  modelibr_file_id : Option Int := none
  modelibr_original_hash : String := ""
deriving DecidableEq, Repr

/-- A texture-info dict as built by `analyze_material_textures` and consumed
by `classify_textures_for_export` / `pack_textures_to_orm`. Keys a given dict
never received stay at their defaults (`.get` misses). `channels` is the
packed-texture channel map (channel name to texture type). -/
structure TexInfo where
  image : Option BlenderImage := none
  image_name : String := ""
  filepath : String := ""
  connections : List Connection := []
  file_id : Option Int := none
  texture_type : Option String := none
  source_channel : Nat := 0
  channels : List (String × String) := []
deriving DecidableEq, Repr

/-- Result dict of `analyze_material_textures`. -/
structure Analysis where
  textures : List TexInfo := []
  packed : List TexInfo := []
  packable : List TexInfo := []
deriving DecidableEq, Repr

/-- The environment the hashing code reads: `hashlib.md5(...).hexdigest()`
(kept abstract as an arbitrary string fingerprint), the filesystem facts
`os.path.exists` / `os.stat` reads (size and mtime serialized into the
fingerprint string), and `bpy.path.abspath`. -/
structure Env where
  md5 : String → String
  exists_file : String → Bool
  file_size : String → Nat
  file_mtime : String → Nat
  abspath : String → String

/-- Python truthiness of an optional integer (`if file_id:`). -/
def fileIdTruthy : Option Int → Bool
  | none => false
  | some n => n != 0

/-- `calculate_texture_hash(image)`: packed images hash their embedded
payload; file-backed images hash the `path|size|mtime` fingerprint; anything
unreadable (no image, no payload, empty path, missing file) yields `""`. -/
def calculate_texture_hash (env : Env) (image : Option BlenderImage) : String :=
  match image with
  | none => ""
  | some img =>
    match img.packed_data with
    | some data => env.md5 data
    | none =>
      if img.filepath ≠ "" then
        let abs_path := env.abspath img.filepath
        if env.exists_file abs_path then
          env.md5 (abs_path ++ "|" ++ toString (env.file_size abs_path) ++ "|"
            ++ toString (env.file_mtime abs_path))
        else ""
      else ""

/-- Result dict of `classify_textures_for_export` (`removed` is a set of
texture-type names, modelled as a list read up to membership). -/
structure ClassificationResult where
  unchanged : List TexInfo := []
  modified : List TexInfo := []
  new : List TexInfo := []
  removed : List String := []
  any_from_modelibr : Bool := false
  any_changed : Bool := false
deriving DecidableEq, Repr

/-- The hash comparison in `classify_textures_for_export`:
`original_hash and current_hash and original_hash == current_hash` on the
stored property and the freshly computed hash. -/
def hashMatches (env : Env) (tex : TexInfo) : Bool :=
  let original_hash :=
    match tex.image with
    | some img => img.modelibr_original_hash
    | none => ""
  let current_hash :=
    match tex.image with
    | some _ => calculate_texture_hash env tex.image
    | none => ""
  original_hash ≠ "" && current_hash ≠ "" && original_hash == current_hash

/-- One iteration of either classification loop: route the slot into
`unchanged` / `modified` / `new` and update the two flags. Both loops use
the identical criterion (only the `current_types` bookkeeping differs, which
is accumulated separately below). -/
def classifyBucket (env : Env) (r : ClassificationResult) (tex : TexInfo) :
    ClassificationResult :=
  if fileIdTruthy tex.file_id then
    let r1 := { r with any_from_modelibr := true }
    if hashMatches env tex then
      { r1 with unchanged := r1.unchanged ++ [tex] }
    else
      { r1 with modified := r1.modified ++ [tex], any_changed := true }
  else
    { r with new := r.new ++ [tex], any_changed := true }

/-- The `current_types` set accumulated by `classify_textures_for_export`:
truthy `texture_type` of every regular slot plus every channel type of every
packed slot. -/
def currentTypes (analysis : Analysis) : List String :=
  (analysis.textures.filterMap fun tex =>
    match tex.texture_type with
    | some t => if t ≠ "" then some t else none
    | none => none)
  ++ analysis.packed.foldl (fun acc tex => acc ++ tex.channels.map (·.2)) []

/-- `classify_textures_for_export(analysis, original_texture_types)`.
`original_texture_types` is the optional set of previously synced texture
types; `None` and the empty set are both falsy, modelled as `[]`. -/
def classify_textures_for_export (env : Env) (analysis : Analysis)
    (original_texture_types : List String) : ClassificationResult :=
  let r1 := analysis.textures.foldl (classifyBucket env) {}
  let r2 := analysis.packed.foldl (classifyBucket env) r1
  if original_texture_types ≠ [] then
    let removed := original_texture_types.filter
      (fun t => !(currentTypes analysis).contains t)
    let r3 := { r2 with removed := removed }
    if removed ≠ [] then { r3 with any_changed := true } else r3
  else r2

/-! ### Channel packer / extractor (`texture_utils.py`) -/

/-- Python dict insertion with insertion-order semantics: overwriting an
existing key updates the value in place, a fresh key is appended. -/
def dictInsert (k : String) (v : α) : List (String × α) → List (String × α)
  | [] => [(k, v)]
  | (k', v') :: rest =>
    if k' = k then (k, v) :: rest else (k', v') :: dictInsert k v rest

/-- `ORM_CHANNEL_MAPPING`: AmbientOcclusion to R (0), Roughness to G (1),
Metallic to B (2). -/
def ormChannel (t : String) : Option Nat :=
  if t = "AmbientOcclusion" then some 0
  else if t = "Roughness" then some 1
  else if t = "Metallic" then some 2
  else none

/-- `PACKABLE_TEXTURE_TYPES`. -/
def PACKABLE_TEXTURE_TYPES : List String :=
  ["AmbientOcclusion", "Roughness", "Metallic"]

/-- The `textures_by_type` dict built at the top of `pack_textures_to_orm`:
entries with a truthy type, an image, and a type in the ORM mapping, keyed by
type (a later slot of the same type overwrites the earlier one). -/
def texturesByType (packable_textures : List TexInfo) :
    List (String × BlenderImage) :=
  packable_textures.foldl
    (fun d tex =>
      match tex.texture_type, tex.image with
      | some t, some img =>
        if t ≠ "" ∧ (ormChannel t).isSome then dictInsert t img d else d
      | _, _ => d)
    []

/-- Row index after `np.flipud`. -/
def flipRow (h y : Nat) : Nat := h - 1 - y

/-- Value of output pixel `(y, x, c)` after the packing loop: the output
starts as `np.ones`, and for each dict entry whose size matches the output,
the R channel of its (twice vertically flipped) pixel grid is written into
the ORM channel of its type. The alpha channel (3) is never written. -/
def packPixel (tbt : List (String × BlenderImage)) (w h y x c : Nat) : ℚ :=
  if c = 3 then 1
  else
    match tbt.find? (fun p => ormChannel p.1 == some c) with
    | some p =>
      if p.2.width = w ∧ p.2.height = h then
        p.2.pixels.getD ((flipRow h (flipRow h y) * w + x) * 4) 0
      else 1
    | none => 1

/-- `pack_textures_to_orm(packable_textures, output_name)`: returns `None`
when no packable texture is found; otherwise builds an RGBA image sized like
the first dict entry, every unfilled channel left at the neutral 1.0. -/
def pack_textures_to_orm (packable_textures : List TexInfo)
    (output_name : String) : Option BlenderImage :=
  match texturesByType packable_textures with
  | [] => none
  | (k, first) :: rest =>
    let tbt := (k, first) :: rest
    let w := first.width
    let h := first.height
    some { name := output_name, width := w, height := h,
           pixels := (List.range (h * w * 4)).map fun i =>
             packPixel tbt w h (i / 4 / w) (i / 4 % w) (i % 4) }

/-- `extract_channel_from_image(source_image, channel_index, extracted_name)`:
API channel index 1=R, 2=G, 3=B, 4=A; returns a grayscale image whose R, G
and B all carry the extracted channel and whose alpha is 1.0. Out-of-range
channel indices and zero-sized images yield `None`. -/
def extract_channel_from_image (source_image : Option BlenderImage)
    (channel_index : Int) (extracted_name : String) : Option BlenderImage :=
  match source_image with
  | none => none
  | some img =>
    if channel_index < 1 ∨ 4 < channel_index then none
    else
      let numpy_channel_idx := (channel_index - 1).toNat
      if img.width = 0 ∨ img.height = 0 then none
      else
        some { name := extracted_name, width := img.width, height := img.height,
               pixels := (List.range (4 * (img.pixels.length / 4))).map fun j =>
                 if j % 4 = 3 then 1
                 else img.pixels.getD (j / 4 * 4 + numpy_channel_idx) 0 }

/-- RGBA value of channel `c` at pixel `(y, x)` of a row-major flattened
buffer (missing data reads as 0, as for an index error). -/
def pixelAt (img : BlenderImage) (y x c : Nat) : ℚ :=
  img.pixels.getD ((y * img.width + x) * 4 + c) 0

/-! ### Shader graph analyzer (`analyze_material_textures`) -/

/-- A shader link from one node's output socket into another node's input
socket (`link.to_node` is an index into the material's node list,
`link.to_socket` the input socket's name). -/
structure NodeLink where
  to_node : Nat
  to_socket : String
deriving DecidableEq, Repr

/-- A node output socket with its outgoing links. -/
structure NodeOutput where
  name : String := ""
  links : List NodeLink := []
deriving DecidableEq, Repr

/-- A shader node: its (stringly-typed, as in Blender) `type`, the image of a
TEX_IMAGE node, and its output sockets. -/
structure ShaderNode where
  ntype : String := ""
  image : Option BlenderImage := none
  outputs : List NodeOutput := []
deriving DecidableEq, Repr

/-- Resolve a link's target node (Blender links hold object references, so a
dangling index cannot occur; out of range reads a blank node). -/
def getNode (ns : List ShaderNode) (i : Nat) : ShaderNode :=
  ns.getD i {}

/-- A material's node tree. -/
structure Material where
  use_nodes : Bool := true
  nodes : List ShaderNode := []
deriving DecidableEq, Repr

/-- A Blender object as the analyzer reads it: its material slots, each
possibly without a material. -/
structure BObject where
  material_slots : List (Option Material) := []
deriving DecidableEq, Repr

/-- `NODE_INPUT_TO_TEXTURE_TYPE` from config.py: the inverse of the
socket-name table `TEXTURE_TYPE_TO_NODE_INPUT`. -/
def NODE_INPUT_TO_TEXTURE_TYPE : String → Option String
  | "Base Color" => some "Albedo"
  | "Normal" => some "Normal"
  | "Roughness" => some "Roughness"
  | "Metallic" => some "Metallic"
  | "AO" => some "AmbientOcclusion"
  | "Height" => some "Height"
  | "Emission Color" => some "Emissive"
  | "Alpha" => some "Opacity"
  | _ => none

/-- The separator-output channel table in case 4 of the traversal. -/
def channelMapGet : String → Option String
  | "R" => some "R"
  | "G" => some "G"
  | "B" => some "B"
  | "Red" => some "R"
  | "Green" => some "G"
  | "Blue" => some "B"
  | "X" => some "R"
  | "Y" => some "G"
  | "Z" => some "B"
  | _ => none

/-- The MixRGB sub-traversal (cases 3 and 4): one AmbientOcclusion connection
per link from the mix node into the Principled BSDF's Base Color. -/
def mixConnections (ns : List ShaderNode) (mixNode : ShaderNode)
    (channel : String) (via : Bool) : List Connection :=
  mixNode.outputs.flatMap fun mix_out =>
    mix_out.links.filterMap fun mix_link =>
      if (getNode ns mix_link.to_node).ntype = "BSDF_PRINCIPLED"
          ∧ mix_link.to_socket = "Base Color" then
        some ⟨channel, "AmbientOcclusion", via⟩
      else none

/-- Connections contributed by one outgoing link of an image texture node
(cases 1-4 of `analyze_material_textures`; unknown target node types
contribute nothing). -/
def linkConnections (ns : List ShaderNode) (lk : NodeLink) : List Connection :=
  let toNode := getNode ns lk.to_node
  if toNode.ntype = "BSDF_PRINCIPLED" then
    [⟨"RGB", (NODE_INPUT_TO_TEXTURE_TYPE lk.to_socket).getD "Albedo", false⟩]
  else if toNode.ntype = "NORMAL_MAP" then
    [⟨"RGB", "Normal", false⟩]
  else if toNode.ntype = "MIX_RGB" then
    mixConnections ns toNode "RGB" false
  else if toNode.ntype = "SEPRGB" ∨ toNode.ntype = "SEPARATE_COLOR"
      ∨ toNode.ntype = "SEPXYZ" then
    toNode.outputs.flatMap fun sep_out =>
      match channelMapGet sep_out.name with
      | none => []
      | some channel =>
        sep_out.links.flatMap fun sep_lk =>
          let sn := getNode ns sep_lk.to_node
          if sn.ntype = "BSDF_PRINCIPLED" then
            match NODE_INPUT_TO_TEXTURE_TYPE sep_lk.to_socket with
            | some tt => [⟨channel, tt, true⟩]
            | none => []
          else if sn.ntype = "MIX_RGB" then
            mixConnections ns sn channel true
          else []
  else []

/-- The `image_connections` list traced for one image texture node. -/
def imageConnections (ns : List ShaderNode) (node : ShaderNode) :
    List Connection :=
  node.outputs.flatMap fun out => out.links.flatMap (linkConnections ns)

/-- The analyzer's mutable state across the nested loops: the two result
lists, the set of image names already analyzed, and the
`packable_candidates` dict (texture type to slot). -/
structure AnalyzerState where
  textures : List TexInfo := []
  packed : List TexInfo := []
  seen_images : List String := []
  packable_candidates : List (String × TexInfo) := []
deriving Repr

/-- The body of the analyzer's per-node loop: skip non-image and already-seen
nodes, trace the connections, then file the slot as packed (2+ via-separate
connections), direct (exactly one direct connection; packable candidate when
its type is ORM-packable), or by falling back to the first connection; an
image without connections is only marked seen. -/
def processImageNode (env : Env) (ns : List ShaderNode) (st : AnalyzerState)
    (node : ShaderNode) : AnalyzerState :=
  if node.ntype ≠ "TEX_IMAGE" then st
  else
    match node.image with
    | none => st
    | some img =>
      if st.seen_images.contains img.name then st
      else
        let st1 := { st with seen_images := st.seen_images ++ [img.name] }
        let conns := imageConnections ns node
        let via_separate := conns.filter (·.via_separate)
        let direct := conns.filter fun c => !c.via_separate
        let ti : TexInfo :=
          { image := some img, image_name := img.name,
            filepath := if img.filepath ≠ "" then env.abspath img.filepath else "",
            connections := conns, file_id := img.modelibr_file_id }
        if via_separate.length ≥ 2 then
          let channel_map := via_separate.foldl
            (fun d c => dictInsert c.channel c.texture_type d) []
          { st1 with packed := st1.packed ++ [{ ti with channels := channel_map }] }
        else
          match direct, conns with
          | [c], _ =>
            let ti2 := { ti with texture_type := some c.texture_type,
                                 source_channel := 0 }
            let st2 := { st1 with textures := st1.textures ++ [ti2] }
            if PACKABLE_TEXTURE_TYPES.contains c.texture_type then
              { st2 with packable_candidates :=
                  dictInsert c.texture_type ti2 st2.packable_candidates }
            else st2
          | _, c0 :: _ =>
            { st1 with textures := st1.textures ++
                [{ ti with texture_type := some c0.texture_type,
                           source_channel := 0 }] }
          | _, [] => st1

/-- The analyzer's per-material step: materials without node setup or without
a Principled BSDF are skipped whole. -/
def processMaterial (env : Env) (st : AnalyzerState) (mat : Material) :
    AnalyzerState :=
  if !mat.use_nodes then st
  else if (mat.nodes.find? fun n => n.ntype == "BSDF_PRINCIPLED").isSome then
    mat.nodes.foldl (processImageNode env mat.nodes) st
  else st

/-- `analyze_material_textures(objects)`: fold the per-material step over all
material slots of all objects, then expose `packable_candidates` as the
`packable` list when at least two candidate types were collected. -/
def analyze_material_textures (env : Env) (objects : List BObject) : Analysis :=
  let st := objects.foldl
    (fun st obj =>
      obj.material_slots.foldl
        (fun st slotMat =>
          match slotMat with
          | none => st
          | some mat => processMaterial env st mat)
        st)
    ({} : AnalyzerState)
  { textures := st.textures, packed := st.packed,
    packable :=
      if st.packable_candidates.length ≥ 2 then
        st.packable_candidates.map (·.2)
      else [] }

/-! ### Concrete fixtures used by witnesses and counterexamples -/

/-- A concrete environment: no file exists, the fingerprint tags its input. -/
def envTrivial : Env :=
  { md5 := fun s => "md5:" ++ s
    exists_file := fun _ => false
    file_size := fun _ => 0
    file_mtime := fun _ => 0
    abspath := fun p => p }

/-- An image whose content hash cannot be computed: not packed, no file path. -/
def imgUnreadable : BlenderImage :=
  { name := "orphan", modelibr_original_hash := "H1" }

/-- A slot carrying a remote file id whose image is unreadable. -/
def texUnreadable : TexInfo :=
  { image := some imgUnreadable, image_name := "orphan",
    file_id := some 123, texture_type := some "Albedo" }

/-- A Principled BSDF sink node (node index 0 in the fixtures). -/
def principledNode : ShaderNode := { ntype := "BSDF_PRINCIPLED" }

/-- 64x64 ambient-occlusion image. -/
def imgAO64 : BlenderImage := { name := "ao_map", width := 64, height := 64 }

/-- 32x32 roughness image: deliberately a different size. -/
def imgRough32 : BlenderImage := { name := "rough_map", width := 32, height := 32 }

/-- TEX_IMAGE node feeding the AO input directly. -/
def texNodeAO : ShaderNode :=
  { ntype := "TEX_IMAGE", image := some imgAO64,
    outputs := [{ name := "Color", links := [⟨0, "AO"⟩] }] }

/-- TEX_IMAGE node feeding the Roughness input directly. -/
def texNodeRough : ShaderNode :=
  { ntype := "TEX_IMAGE", image := some imgRough32,
    outputs := [{ name := "Color", links := [⟨0, "Roughness"⟩] }] }

/-- Material with AO 64x64 and Roughness 32x32, both directly connected. -/
def matMismatch : Material :=
  { nodes := [principledNode, texNodeAO, texNodeRough] }

/-- Object holding `matMismatch`. -/
def objMismatch : BObject := { material_slots := [some matMismatch] }

/-- An image whose filename would match the Roughness keyword table. -/
def imgUnlinked : BlenderImage :=
  { name := "wall_rough", filepath := "wall_rough.png" }

/-- An image texture node with no outgoing links at all. -/
def texNodeUnlinked : ShaderNode :=
  { ntype := "TEX_IMAGE", image := some imgUnlinked,
    outputs := [{ name := "Color", links := [] }] }

/-- Material with a Principled BSDF and one unconnected image texture. -/
def matUnlinked : Material := { nodes := [principledNode, texNodeUnlinked] }

/-- Object holding `matUnlinked`. -/
def objUnlinked : BObject := { material_slots := [some matUnlinked] }

/-- 1x1 grayscale sources for the pack/extract round trip. -/
def imgAO1 : BlenderImage :=
  { name := "ao1", width := 1, height := 1, pixels := [1/4, 1/4, 1/4, 1] }

/-- 1x1 roughness source. -/
def imgRough1 : BlenderImage :=
  { name := "rough1", width := 1, height := 1, pixels := [1/2, 1/2, 1/2, 1] }

/-- 1x1 metallic source. -/
def imgMetal1 : BlenderImage :=
  { name := "metal1", width := 1, height := 1, pixels := [3/4, 3/4, 3/4, 1] }

/-- The three packable slots built from the 1x1 sources. -/
def packList1 : List TexInfo :=
  [{ image := some imgAO1, texture_type := some "AmbientOcclusion" },
   { image := some imgRough1, texture_type := some "Roughness" },
   { image := some imgMetal1, texture_type := some "Metallic" }]

/-- The analyzer's loop invariant on `packable_candidates`: every candidate
is keyed by its own (ORM-packable) texture type, is a direct unpacked slot,
and also appears in the `textures` result list; keys are distinct. -/
def analyzerInv (st : AnalyzerState) : Prop :=
  (∀ p ∈ st.packable_candidates,
    p.2.texture_type = some p.1 ∧ p.1 ∈ PACKABLE_TEXTURE_TYPES
    ∧ p.2.channels = [] ∧ p.2 ∈ st.textures)
  ∧ (st.packable_candidates.map Prod.fst).Nodup

/-! ## Theorems -/

/-- The clamp `min(1.0, max(0.0, p))` lands in `[0,1]`. -/
lemma clamp_mem (p : ℚ) : 0 ≤ min 1 (max 0 p) ∧ min 1 (max 0 p) ≤ 1 :=
  ⟨le_min (by norm_num) (le_max_left 0 p), min_le_left 1 _⟩

/-- Every tracker operation preserves `progress ∈ [0,1]`. -/
lemma apply_progress_mem (op : TrackerOp) (s : ProgressState)
    (h : 0 ≤ s.progress ∧ s.progress ≤ 1) :
    0 ≤ (op.apply s).progress ∧ (op.apply s).progress ≤ 1 := by
  cases op with
  | update p m st =>
    cases p with
    | none =>
      cases m <;> cases st <;>
        simpa [TrackerOp.apply, Modelibr.update] using h
    | some q =>
      cases m <;> cases st <;>
        simp [TrackerOp.apply, Modelibr.update]
  | set_running m =>
    simp [TrackerOp.apply, Modelibr.set_running, Modelibr.update]
  | set_completed r =>
    simp [TrackerOp.apply, Modelibr.set_completed]
  | set_failed e =>
    simpa [TrackerOp.apply, Modelibr.set_failed] using h
  | set_cancelled =>
    simpa [TrackerOp.apply, Modelibr.set_cancelled, Modelibr.update] using h

/-- Folding tracker operations from any in-range state stays in range. -/
lemma foldl_progress_mem (ops : List TrackerOp) (s : ProgressState)
    (h : 0 ≤ s.progress ∧ s.progress ≤ 1) :
    0 ≤ (ops.foldl (fun s op => op.apply s) s).progress
    ∧ (ops.foldl (fun s op => op.apply s) s).progress ≤ 1 := by
  induction ops generalizing s with
  | nil => exact h
  | cons op rest ih => exact ih (op.apply s) (apply_progress_mem op s h)

/-- C8 (confirmed). After any sequence of `ProgressTracker` operations from
the initial state, the stored progress lies in `[0,1]`: `update` clamps any
supplied progress into `[0,1]` and no other operation moves it outside. -/
theorem C8_progress_in_unit_interval (ops : List TrackerOp) :
    0 ≤ (runOps ops).progress ∧ (runOps ops).progress ≤ 1 :=
  foldl_progress_mem ops ProgressState.init (by norm_num [ProgressState.init])

/-- C10 (confirmed). `ProgressTracker.update` leaves every field whose
argument is `None` unchanged, and never modifies the `error` or `result`
fields, whatever the prior state. -/
theorem C10_update_frame (s : ProgressState) (p : Option ℚ)
    (m : Option String) (st : Option TaskStatus) :
    (update p m st s).error = s.error
    ∧ (update p m st s).result = s.result
    ∧ (update none m st s).progress = s.progress
    ∧ (update p none st s).message = s.message
    ∧ (update p m none s).status = s.status := by
  cases p <;> cases m <;> cases st <;> exact ⟨rfl, rfl, rfl, rfl, rfl⟩

/-- C1 counterexample: from the terminal state reached by `set_completed`, a
further `set_failed` call does change the tracked status (COMPLETED becomes
FAILED), so terminal states are not no-ops for the tracker's own methods. -/
theorem C1_terminal_overwritten_cex :
    (set_completed (some "r") ProgressState.init).status = TaskStatus.COMPLETED
    ∧ (set_failed "boom" (set_completed (some "r") ProgressState.init)).status
        = TaskStatus.FAILED :=
  ⟨rfl, rfl⟩

/-- C1 (corrected). The tracker's `update`/`set_*` methods apply a supplied
status unconditionally, even from a terminal state; the only terminal-state
no-op guarantee is in `BackgroundTask._run_wrapper`, whose implicit
completion after `run()` leaves an already-terminal tracker state unchanged. -/
theorem C1_wrapper_terminal_noop (s : ProgressState)
    (h : is_finished s = true) : run_wrapper_finalize s = s := by
  simp [run_wrapper_finalize, h]

/-- C1 witness: the wrapper's finalization is a no-op on the concrete state
reached by `set_cancelled`. -/
theorem C1_wrapper_terminal_noop_witness :
    is_finished (set_cancelled ProgressState.init) = true
    ∧ run_wrapper_finalize (set_cancelled ProgressState.init)
        = set_cancelled ProgressState.init :=
  ⟨rfl, C1_wrapper_terminal_noop (set_cancelled ProgressState.init) rfl⟩

/-- Characterization of either classification loop: folding `classifyBucket`
appends, to each bucket, the input slots passing that bucket's criterion, and
accumulates the two flags; `removed` is untouched. -/
lemma foldl_classifyBucket (env : Env) (l : List TexInfo)
    (r : ClassificationResult) :
    l.foldl (classifyBucket env) r =
      { unchanged := r.unchanged
          ++ l.filter fun t => fileIdTruthy t.file_id && hashMatches env t,
        modified := r.modified
          ++ l.filter fun t => fileIdTruthy t.file_id && !hashMatches env t,
        new := r.new ++ l.filter fun t => !fileIdTruthy t.file_id,
        removed := r.removed,
        any_from_modelibr := r.any_from_modelibr
          || l.any fun t => fileIdTruthy t.file_id,
        any_changed := r.any_changed
          || l.any fun t => !(fileIdTruthy t.file_id && hashMatches env t) } := by
  induction l generalizing r with
  | nil => simp
  | cons t tl ih =>
    rw [List.foldl_cons, ih]
    unfold classifyBucket
    cases h1 : fileIdTruthy t.file_id <;> cases h2 : hashMatches env t <;>
      simp [h1, h2, List.filter_cons, List.any_cons]

/-- The three buckets of `classify_textures_for_export` are the filters of
the concatenated slot lists under the common routing criterion. -/
lemma classify_buckets (env : Env) (analysis : Analysis)
    (original : List String) :
    (classify_textures_for_export env analysis original).unchanged
      = (analysis.textures ++ analysis.packed).filter
          (fun t => fileIdTruthy t.file_id && hashMatches env t)
    ∧ (classify_textures_for_export env analysis original).modified
      = (analysis.textures ++ analysis.packed).filter
          (fun t => fileIdTruthy t.file_id && !hashMatches env t)
    ∧ (classify_textures_for_export env analysis original).new
      = (analysis.textures ++ analysis.packed).filter
          (fun t => !fileIdTruthy t.file_id) := by
  simp only [classify_textures_for_export, foldl_classifyBucket]
  split
  · split <;> simp [List.filter_append]
  · simp [List.filter_append]

/-- The `removed` component of the classification result. -/
lemma classify_removed (env : Env) (analysis : Analysis)
    (original : List String) :
    (classify_textures_for_export env analysis original).removed
      = if original ≠ [] then
          original.filter fun t => !(currentTypes analysis).contains t
        else [] := by
  simp only [classify_textures_for_export, foldl_classifyBucket]
  split
  · split <;> simp
  · simp

/-- C7 (confirmed). `removed` consists exactly of the texture types present
in the original remote set but absent from the current analysis, and a
non-empty `removed` forces `any_changed`. -/
theorem C7_removed_sound (env : Env) (analysis : Analysis)
    (original : List String) :
    (∀ t, t ∈ (classify_textures_for_export env analysis original).removed
        ↔ (t ∈ original ∧ t ∉ currentTypes analysis))
    ∧ ((classify_textures_for_export env analysis original).removed ≠ []
        → (classify_textures_for_export env analysis original).any_changed
            = true) := by
  constructor
  · intro t
    rw [classify_removed]
    split
    · simp [List.mem_filter, List.elem_iff]
    · rename_i h
      simp only [ne_eq, not_not] at h
      simp [h]
  · intro hne
    rw [classify_removed] at hne
    simp only [classify_textures_for_export, foldl_classifyBucket]
    split
    · rename_i h
      rw [if_pos h] at hne
      split
      · simp
      · rename_i h2
        exact absurd hne h2
    · rename_i h
      rw [if_neg h] at hne
      exact absurd rfl hne

/-- C7 witness: the scenario from the spec, with remote roles
Albedo/Normal/Roughness and a current analysis containing only Albedo. -/
theorem C7_removed_sound_witness :
    (∀ t, t ∈ (classify_textures_for_export envTrivial
          { textures := [{ texture_type := some "Albedo" }] }
          ["Albedo", "Normal", "Roughness"]).removed
        ↔ (t ∈ ["Albedo", "Normal", "Roughness"]
            ∧ t ∉ currentTypes { textures := [{ texture_type := some "Albedo" }] }))
    ∧ ((classify_textures_for_export envTrivial
          { textures := [{ texture_type := some "Albedo" }] }
          ["Albedo", "Normal", "Roughness"]).removed ≠ []
        → (classify_textures_for_export envTrivial
          { textures := [{ texture_type := some "Albedo" }] }
          ["Albedo", "Normal", "Roughness"]).any_changed = true) :=
  C7_removed_sound envTrivial { textures := [{ texture_type := some "Albedo" }] }
    ["Albedo", "Normal", "Roughness"]

/-- Splitting a list by a two-level boolean criterion partitions its length. -/
lemma length_filter_partition {α : Type} (l : List α) (p q : α → Bool) :
    (l.filter fun t => p t && q t).length
    + (l.filter fun t => p t && !q t).length
    + (l.filter fun t => !p t).length = l.length := by
  induction l with
  | nil => simp
  | cons t tl ih =>
    cases hp : p t <;> cases hq : q t <;>
      simp [List.filter_cons, hp, hq] <;> omega

/-- C9 (confirmed). Classification partitions the input slots: the three
buckets cover `textures ++ packed`, are pairwise disjoint, and their lengths
sum to the number of input slots. -/
theorem C9_classification_partitions (env : Env) (analysis : Analysis)
    (original : List String) :
    ((classify_textures_for_export env analysis original).unchanged.length
      + (classify_textures_for_export env analysis original).modified.length
      + (classify_textures_for_export env analysis original).new.length
      = analysis.textures.length + analysis.packed.length)
    ∧ (∀ t, t ∈ analysis.textures ++ analysis.packed
        ↔ (t ∈ (classify_textures_for_export env analysis original).unchanged
          ∨ t ∈ (classify_textures_for_export env analysis original).modified
          ∨ t ∈ (classify_textures_for_export env analysis original).new))
    ∧ (∀ t, ¬(t ∈ (classify_textures_for_export env analysis original).unchanged
            ∧ t ∈ (classify_textures_for_export env analysis original).modified)
        ∧ ¬(t ∈ (classify_textures_for_export env analysis original).unchanged
            ∧ t ∈ (classify_textures_for_export env analysis original).new)
        ∧ ¬(t ∈ (classify_textures_for_export env analysis original).modified
            ∧ t ∈ (classify_textures_for_export env analysis original).new)) := by
  obtain ⟨hu, hm, hn⟩ := classify_buckets env analysis original
  refine ⟨?_, ?_, ?_⟩
  · rw [hu, hm, hn]
    rw [length_filter_partition (analysis.textures ++ analysis.packed)
      (fun t => fileIdTruthy t.file_id) (fun t => hashMatches env t)]
    exact List.length_append ..
  · intro t
    rw [hu, hm, hn]
    simp only [List.mem_filter]
    cases h1 : fileIdTruthy t.file_id <;> cases h2 : hashMatches env t <;>
      simp [h1, h2]
  · intro t
    rw [hu, hm, hn]
    simp only [List.mem_filter]
    refine ⟨?_, ?_, ?_⟩ <;> rintro ⟨⟨-, ha⟩, ⟨-, hb⟩⟩ <;>
      simp_all

/-- C9 witness: the partition at a concrete two-slot analysis. -/
theorem C9_classification_partitions_witness :
    ((classify_textures_for_export envTrivial
        { textures := [texUnreadable, { texture_type := some "Normal" }] } []).unchanged.length
      + (classify_textures_for_export envTrivial
        { textures := [texUnreadable, { texture_type := some "Normal" }] } []).modified.length
      + (classify_textures_for_export envTrivial
        { textures := [texUnreadable, { texture_type := some "Normal" }] } []).new.length
      = ({ textures := [texUnreadable, { texture_type := some "Normal" }] } : Analysis).textures.length
        + ({ textures := [texUnreadable, { texture_type := some "Normal" }] } : Analysis).packed.length)
    ∧ (∀ t, t ∈ ({ textures := [texUnreadable, { texture_type := some "Normal" }] } : Analysis).textures
              ++ ({ textures := [texUnreadable, { texture_type := some "Normal" }] } : Analysis).packed
        ↔ (t ∈ (classify_textures_for_export envTrivial
            { textures := [texUnreadable, { texture_type := some "Normal" }] } []).unchanged
          ∨ t ∈ (classify_textures_for_export envTrivial
            { textures := [texUnreadable, { texture_type := some "Normal" }] } []).modified
          ∨ t ∈ (classify_textures_for_export envTrivial
            { textures := [texUnreadable, { texture_type := some "Normal" }] } []).new))
    ∧ (∀ t, ¬(t ∈ (classify_textures_for_export envTrivial
            { textures := [texUnreadable, { texture_type := some "Normal" }] } []).unchanged
            ∧ t ∈ (classify_textures_for_export envTrivial
            { textures := [texUnreadable, { texture_type := some "Normal" }] } []).modified)
        ∧ ¬(t ∈ (classify_textures_for_export envTrivial
            { textures := [texUnreadable, { texture_type := some "Normal" }] } []).unchanged
            ∧ t ∈ (classify_textures_for_export envTrivial
            { textures := [texUnreadable, { texture_type := some "Normal" }] } []).new)
        ∧ ¬(t ∈ (classify_textures_for_export envTrivial
            { textures := [texUnreadable, { texture_type := some "Normal" }] } []).modified
            ∧ t ∈ (classify_textures_for_export envTrivial
            { textures := [texUnreadable, { texture_type := some "Normal" }] } []).new)) :=
  C9_classification_partitions envTrivial
    { textures := [texUnreadable, { texture_type := some "Normal" }] } []

/-- C2 counterexample: a slot with remote file id 123 whose image's content
hash cannot be computed is classified `modified`, not `new` as claimed. -/
theorem C2_unreadable_with_id_cex :
    calculate_texture_hash envTrivial (some imgUnreadable) = ""
    ∧ (classify_textures_for_export envTrivial
        { textures := [texUnreadable] } []).new = []
    ∧ (classify_textures_for_export envTrivial
        { textures := [texUnreadable] } []).modified = [texUnreadable] :=
  ⟨rfl, rfl, rfl⟩

/-- C2 (corrected). A slot whose content hash cannot be computed never aborts
classification: without a (truthy) remote file id it is classified `new`;
with a remote file id it is classified `modified` (forcing re-upload),
not `new`. -/
theorem C2_unreadable_never_fails (env : Env) (analysis : Analysis)
    (original : List String) (tex : TexInfo)
    (hmem : tex ∈ analysis.textures ++ analysis.packed)
    (hhash : calculate_texture_hash env tex.image = "") :
    (fileIdTruthy tex.file_id = false
      → tex ∈ (classify_textures_for_export env analysis original).new)
    ∧ (fileIdTruthy tex.file_id = true
      → tex ∈ (classify_textures_for_export env analysis original).modified) := by
  obtain ⟨-, hm, hn⟩ := classify_buckets env analysis original
  have hcur : hashMatches env tex = false := by
    unfold hashMatches
    cases himg : tex.image with
    | none => simp
    | some img =>
      rw [himg] at hhash
      simp [himg, hhash]
  constructor
  · intro hid
    rw [hn, List.mem_filter]
    exact ⟨hmem, by simp [hid]⟩
  · intro hid
    rw [hm, List.mem_filter]
    exact ⟨hmem, by simp [hid, hcur]⟩

/-- C2 witness: the unreadable slot with file id 123 at a concrete analysis. -/
theorem C2_unreadable_never_fails_witness :
    (fileIdTruthy texUnreadable.file_id = false
      → texUnreadable ∈ (classify_textures_for_export envTrivial
          { textures := [texUnreadable] } []).new)
    ∧ (fileIdTruthy texUnreadable.file_id = true
      → texUnreadable ∈ (classify_textures_for_export envTrivial
          { textures := [texUnreadable] } []).modified) :=
  C2_unreadable_never_fails envTrivial { textures := [texUnreadable] } []
    texUnreadable (by simp) rfl

/-- Reading a mapped range at an in-bounds index evaluates the function. -/
lemma getD_range_map (n j : Nat) (f : Nat → ℚ) (hj : j < n) :
    ((List.range n).map f).getD j 0 = f j := by
  rw [List.getD_eq_getElem?_getD]
  simp [List.getElem?_map, List.getElem?_range, hj]

/-- Inversion for the ORM channel table. -/
lemma ormChannel_inv (a : String) (n : Nat) (h : ormChannel a = some n) :
    (a = "AmbientOcclusion" ∧ n = 0) ∨ (a = "Roughness" ∧ n = 1)
    ∨ (a = "Metallic" ∧ n = 2) := by
  unfold ormChannel at h
  split_ifs at h <;> simp_all

/-- The ORM channel table is injective where defined. -/
lemma ormChannel_inj (a b : String) (n : Nat) (ha : ormChannel a = some n)
    (hb : ormChannel b = some n) : a = b := by
  rcases ormChannel_inv a n ha with ⟨h1, h2⟩ | ⟨h1, h2⟩ | ⟨h1, h2⟩ <;>
    rcases ormChannel_inv b n hb with ⟨h3, h4⟩ | ⟨h3, h4⟩ | ⟨h3, h4⟩ <;>
      simp_all

/-- ORM channels are 0, 1 or 2. -/
lemma ormChannel_lt (a : String) (n : Nat) (h : ormChannel a = some n) :
    n < 3 := by
  rcases ormChannel_inv a n h with ⟨-, h2⟩ | ⟨-, h2⟩ | ⟨-, h2⟩ <;> omega

/-- A successful association-list lookup exhibits a member pair. -/
lemma lookup_mem {β : Type} (d : List (String × β)) (a : String) (b : β)
    (h : d.lookup a = some b) : (a, b) ∈ d := by
  induction d with
  | nil => simp [List.lookup] at h
  | cons hd tl ih =>
    obtain ⟨k, v⟩ := hd
    by_cases hk : a = k
    · subst hk
      simp [List.lookup] at h
      simp [h]
    · rw [show ((k, v) :: tl).lookup a = tl.lookup a by
        simp [List.lookup, show (a == k) = false by simp [hk]]] at h
      exact List.mem_cons_of_mem _ (ih h)

/-- The packing loop's channel search finds exactly the dict entry whose type
maps to that channel. -/
lemma find?_ormChannel_some (d : List (String × BlenderImage)) (role : String)
    (cIdx : Nat) (src : BlenderImage) (hrole : ormChannel role = some cIdx)
    (hlook : d.lookup role = some src) :
    d.find? (fun p => ormChannel p.1 == some cIdx) = some (role, src) := by
  induction d with
  | nil => simp [List.lookup] at hlook
  | cons hd tl ih =>
    obtain ⟨k, v⟩ := hd
    by_cases hk : role = k
    · subst hk
      simp [List.lookup] at hlook
      subst hlook
      rw [List.find?_cons_of_pos _ (by simp [hrole])]
    · rw [show ((k, v) :: tl).lookup role = tl.lookup role by
        simp [List.lookup, show (role == k) = false by simp [hk]]] at hlook
      have hp : (ormChannel k == some cIdx) = false := by
        cases hck : ormChannel k with
        | none => simp
        | some m =>
          by_cases hm : m = cIdx
          · subst hm
            exact absurd (ormChannel_inj k role m hck hrole) (Ne.symm hk)
          · simp [hm]
      rw [List.find?_cons_of_neg _ (by simp [hp])]
      exact ih hlook

/-- No dict entry maps to the channel of a role that is absent. -/
lemma find?_ormChannel_none (d : List (String × BlenderImage)) (role : String)
    (cIdx : Nat) (hrole : ormChannel role = some cIdx)
    (hlook : d.lookup role = none) :
    d.find? (fun p => ormChannel p.1 == some cIdx) = none := by
  induction d with
  | nil => simp
  | cons hd tl ih =>
    obtain ⟨k, v⟩ := hd
    by_cases hk : role = k
    · subst hk
      simp [List.lookup] at hlook
    · rw [show ((k, v) :: tl).lookup role = tl.lookup role by
        simp [List.lookup, show (role == k) = false by simp [hk]]] at hlook
      have hp : (ormChannel k == some cIdx) = false := by
        cases hck : ormChannel k with
        | none => simp
        | some m =>
          by_cases hm : m = cIdx
          · subst hm
            exact absurd (ormChannel_inj k role m hck hrole) (Ne.symm hk)
          · simp [hm]
      rw [List.find?_cons_of_neg _ (by simp [hp])]
      exact ih hlook

/-- A flattened RGBA index is in bounds. -/
lemma pixel_index_lt (w h y x c : Nat) (hy : y < h) (hx : x < w) (hc : c < 4) :
    (y * w + x) * 4 + c < h * w * 4 := by
  have h1 : y * w + x + 1 ≤ h * w := by
    have h2 : (y + 1) * w ≤ h * w := Nat.mul_le_mul_right w hy
    calc y * w + x + 1 ≤ y * w + w := by omega
      _ = (y + 1) * w := by ring
      _ ≤ h * w := h2
  calc (y * w + x) * 4 + c < (y * w + x) * 4 + 4 := by omega
    _ = (y * w + x + 1) * 4 := by ring
    _ ≤ h * w * 4 := Nat.mul_le_mul_right 4 h1

/-- Recover the row from a flattened row-major index. -/
lemma row_of_index (w y x : Nat) (hx : x < w) : (y * w + x) / w = y := by
  rw [show y * w + x = x + y * w by ring,
    Nat.add_mul_div_right _ _ (by omega : 0 < w), Nat.div_eq_of_lt hx,
    Nat.zero_add]

/-- Recover the column from a flattened row-major index. -/
lemma col_of_index (w y x : Nat) (hx : x < w) : (y * w + x) % w = x := by
  rw [show y * w + x = x + y * w by ring, Nat.add_mul_mod_self_right,
    Nat.mod_eq_of_lt hx]

/-- Flipping a row twice is the identity. -/
lemma flipRow_flipRow (h y : Nat) (hy : y < h) : flipRow h (flipRow h y) = y := by
  unfold flipRow
  omega

/-- Unfolding `pack_textures_to_orm` on a non-empty dict. -/
lemma pack_some (l : List TexInfo) (nm k : String) (first : BlenderImage)
    (rest : List (String × BlenderImage)) (w h : Nat)
    (heq : texturesByType l = (k, first) :: rest)
    (hfw : first.width = w) (hfh : first.height = h) :
    pack_textures_to_orm l nm = some
      { name := nm, width := w, height := h,
        pixels := (List.range (h * w * 4)).map fun i =>
          packPixel ((k, first) :: rest) w h (i / 4 / w) (i / 4 % w) (i % 4) } := by
  subst hfw
  subst hfh
  unfold pack_textures_to_orm
  rw [heq]

/-- Pixels of the image `pack_textures_to_orm` builds are `packPixel`. -/
lemma packed_pixelAt (tbt : List (String × BlenderImage)) (nm : String)
    (w h y x c : Nat) (hy : y < h) (hx : x < w) (hc : c < 4) :
    pixelAt
      { name := nm, width := w, height := h,
        pixels := (List.range (h * w * 4)).map fun i =>
          packPixel tbt w h (i / 4 / w) (i / 4 % w) (i % 4) } y x c
    = packPixel tbt w h y x c := by
  simp only [pixelAt]
  rw [getD_range_map _ _ _ (pixel_index_lt w h y x c hy hx hc)]
  rw [show ((y * w + x) * 4 + c) / 4 = y * w + x by omega,
    show ((y * w + x) * 4 + c) % 4 = c by omega,
    row_of_index w y x hx, col_of_index w y x hx]

/-- `packPixel` on a channel whose source is found with matching size reads
the source's R channel (the two vertical flips cancel). -/
lemma packPixel_found (tbt : List (String × BlenderImage)) (w h y x cIdx : Nat)
    (role : String) (src : BlenderImage)
    (hfind : tbt.find? (fun p => ormChannel p.1 == some cIdx) = some (role, src))
    (hc3 : cIdx ≠ 3) (hsz : src.width = w ∧ src.height = h) (hy : y < h) :
    packPixel tbt w h y x cIdx = src.pixels.getD ((y * w + x) * 4) 0 := by
  unfold packPixel
  rw [if_neg hc3, hfind]
  simp only
  rw [if_pos hsz, flipRow_flipRow h y hy]

/-- Reading a pixel of an image whose buffer is a mapped range. -/
lemma pixelAt_range_map (nm : String) (w2 h2 n : Nat) (f : Nat → ℚ)
    (y x c : Nat) (hlt : (y * w2 + x) * 4 + c < n) :
    pixelAt { name := nm, width := w2, height := h2,
              pixels := (List.range n).map f } y x c
      = f ((y * w2 + x) * 4 + c) := by
  simp only [pixelAt]
  exact getD_range_map n _ f hlt

/-- Unfolding `extract_channel_from_image` at in-range channel `cIdx + 1`. -/
lemma extract_some (img : BlenderImage) (cIdx : Nat) (nm : String)
    (hc : cIdx < 4) (hw : img.width ≠ 0) (hh : img.height ≠ 0) :
    extract_channel_from_image (some img) ((cIdx : Int) + 1) nm = some
      { name := nm, width := img.width, height := img.height,
        pixels := (List.range (4 * (img.pixels.length / 4))).map fun j =>
          if j % 4 = 3 then 1 else img.pixels.getD (j / 4 * 4 + cIdx) 0 } := by
  simp only [extract_channel_from_image]
  rw [if_neg (by omega), if_neg (by simp [hw, hh])]
  rw [show ((cIdx : Int) + 1 - 1).toNat = cIdx by omega]

/-- Composition: packing a non-empty source dict and then extracting channel
`cIdx` yields an image whose color channels all read `packPixel` at `cIdx`
and whose alpha is 1. -/
lemma pack_then_extract (l : List TexInfo) (nmP nmE k : String)
    (first : BlenderImage) (rest : List (String × BlenderImage))
    (w h cIdx : Nat) (heq : texturesByType l = (k, first) :: rest)
    (hfw : first.width = w) (hfh : first.height = h)
    (hw0 : 0 < w) (hh0 : 0 < h) (hcIdx : cIdx < 4) :
    ∃ extracted,
      pack_textures_to_orm l nmP = some
        { name := nmP, width := w, height := h,
          pixels := (List.range (h * w * 4)).map fun i =>
            packPixel ((k, first) :: rest) w h (i / 4 / w) (i / 4 % w) (i % 4) }
      ∧ extract_channel_from_image (pack_textures_to_orm l nmP)
          ((cIdx : Int) + 1) nmE = some extracted
      ∧ extracted.width = w ∧ extracted.height = h
      ∧ ∀ y x c, y < h → x < w → c < 4 →
          pixelAt extracted y x c
            = if c = 3 then 1 else packPixel ((k, first) :: rest) w h y x cIdx := by
  have hpack := pack_some l nmP k first rest w h heq hfw hfh
  set P : BlenderImage :=
    { name := nmP, width := w, height := h,
      pixels := (List.range (h * w * 4)).map fun i =>
        packPixel ((k, first) :: rest) w h (i / 4 / w) (i / 4 % w) (i % 4) }
    with hP
  have hPw : P.width = w := by rw [hP]
  have hPh : P.height = h := by rw [hP]
  have hlen : P.pixels.length = h * w * 4 := by simp [hP]
  have hext := extract_some P cIdx nmE hcIdx (by omega) (by omega)
  rw [hlen, show 4 * (h * w * 4 / 4) = h * w * 4 by omega, hPw, hPh] at hext
  refine ⟨_, hpack, by rw [hpack]; exact hext, rfl, rfl, ?_⟩
  intro y x c hy hx hc
  rw [pixelAt_range_map nmE w h (h * w * 4) _ y x c
    (pixel_index_lt w h y x c hy hx hc)]
  rw [show ((y * w + x) * 4 + c) % 4 = c by omega,
    show ((y * w + x) * 4 + c) / 4 = y * w + x by omega]
  by_cases hc3 : c = 3
  · simp [hc3]
  · rw [if_neg hc3, if_neg hc3]
    have hread : P.pixels.getD ((y * w + x) * 4 + cIdx) 0 = pixelAt P y x cIdx := by
      simp [pixelAt, hPw]
    rw [hread, hP, packed_pixelAt _ _ _ _ _ _ _ hy hx hcIdx]

/-- C3 (confirmed). For sources keyed AmbientOcclusion, Roughness and
Metallic with equal dimensions, extracting a channel of the packed ORM image
reproduces the original single-channel source for that channel exactly
(hence within any rounding tolerance): the extracted image carries the
source's R value in its R, G and B channels and alpha 1, at every pixel. -/
theorem C3_pack_extract_roundtrip (l : List TexInfo) (w h : Nat)
    (role : String) (cIdx : Nat) (src : BlenderImage) (nmP nmE : String)
    (y x : Nat)
    (hsz : ∀ p ∈ texturesByType l, p.2.width = w ∧ p.2.height = h)
    (hrole : ormChannel role = some cIdx)
    (hlook : (texturesByType l).lookup role = some src)
    (hy : y < h) (hx : x < w) :
    ∃ packed extracted,
      pack_textures_to_orm l nmP = some packed
      ∧ extract_channel_from_image (some packed) ((cIdx : Int) + 1) nmE
          = some extracted
      ∧ pixelAt extracted y x 0 = pixelAt src y x 0
      ∧ pixelAt extracted y x 1 = pixelAt src y x 0
      ∧ pixelAt extracted y x 2 = pixelAt src y x 0
      ∧ pixelAt extracted y x 3 = 1 := by
  obtain ⟨hsrcw, hsrch⟩ := hsz _ (lookup_mem _ _ _ hlook)
  have hcd : cIdx < 3 := ormChannel_lt role cIdx hrole
  cases heq : texturesByType l with
  | nil => rw [heq] at hlook; simp [List.lookup] at hlook
  | cons hd rest =>
    obtain ⟨k, first⟩ := hd
    obtain ⟨hfw, hfh⟩ := hsz (k, first) (by rw [heq]; exact List.mem_cons_self ..)
    rw [heq] at hlook
    obtain ⟨extracted, hpack, hext, -, -, hpix⟩ :=
      pack_then_extract l nmP nmE k first rest w h cIdx heq hfw hfh
        (by omega) (by omega) (by omega)
    rw [hpack] at hext
    have hvalue : packPixel ((k, first) :: rest) w h y x cIdx
        = pixelAt src y x 0 := by
      rw [packPixel_found _ _ _ _ _ _ role src
        (find?_ormChannel_some _ _ _ _ hrole hlook) (by omega)
        ⟨hsrcw, hsrch⟩ hy]
      have hsw : src.width = w := hsrcw
      simp [pixelAt, hsw]
    refine ⟨_, extracted, hpack, hext, ?_, ?_, ?_, ?_⟩ <;>
      rw [hpix y x _ hy hx (by omega)]
    · rw [if_neg (by omega), hvalue]
    · rw [if_neg (by omega), hvalue]
    · rw [if_neg (by omega), hvalue]
    · rw [if_pos rfl]

/-- C3 witness: the round trip at the concrete 1x1 AO/Roughness/Metallic
sources, extracting the R channel. -/
theorem C3_pack_extract_roundtrip_witness :
    ∃ packed extracted,
      pack_textures_to_orm packList1 "packed_orm" = some packed
      ∧ extract_channel_from_image (some packed) (((0 : Nat) : Int) + 1) "ext"
          = some extracted
      ∧ pixelAt extracted 0 0 0 = pixelAt imgAO1 0 0 0
      ∧ pixelAt extracted 0 0 1 = pixelAt imgAO1 0 0 0
      ∧ pixelAt extracted 0 0 2 = pixelAt imgAO1 0 0 0
      ∧ pixelAt extracted 0 0 3 = 1 :=
  C3_pack_extract_roundtrip packList1 1 1 "AmbientOcclusion" 0 imgAO1
    "packed_orm" "ext" 0 0 (by decide) (by decide) rfl
    (by decide) (by decide)

/-- C6 counterexample: on an input list with no packable texture the pack
operation returns `None` rather than a best-effort image. -/
theorem C6_empty_pack_cex : pack_textures_to_orm [] "packed_orm" = none := rfl

/-- C6 (corrected). Once at least one valid packable texture is present, the
pack operation returns a best-effort image: a channel whose role has no
source, or whose source's dimensions mismatch the output size, is filled
with the neutral value 1.0, and the alpha channel is 1.0 everywhere; with no
valid packable texture at all, the operation instead returns `None`. -/
theorem C6_neutral_fill (l : List TexInfo) (nm : String)
    (hne : texturesByType l ≠ []) :
    ∃ img, pack_textures_to_orm l nm = some img
      ∧ ∀ y x, y < img.height → x < img.width →
          (pixelAt img y x 3 = 1)
          ∧ ∀ c role, ormChannel role = some c →
              ((texturesByType l).lookup role = none → pixelAt img y x c = 1)
              ∧ (∀ src, (texturesByType l).lookup role = some src
                  → ¬(src.width = img.width ∧ src.height = img.height)
                  → pixelAt img y x c = 1) := by
  cases heq : texturesByType l with
  | nil => exact absurd heq hne
  | cons hd rest =>
    obtain ⟨k, first⟩ := hd
    have hpack := pack_some l nm k first rest first.width first.height heq rfl rfl
    refine ⟨_, hpack, ?_⟩
    intro y x hy hx
    refine ⟨?_, ?_⟩
    · rw [packed_pixelAt _ _ _ _ _ _ _ hy hx (by omega)]
      unfold packPixel
      rw [if_pos rfl]
    · intro c role hrole
      have hc3 : c < 3 := ormChannel_lt role c hrole
      constructor
      · intro hnone
        rw [packed_pixelAt _ _ _ _ _ _ _ hy hx (by omega)]
        unfold packPixel
        rw [if_neg (by omega), find?_ormChannel_none _ _ _ hrole hnone]
      · intro src hsome hmismatch
        rw [packed_pixelAt _ _ _ _ _ _ _ hy hx (by omega)]
        unfold packPixel
        rw [if_neg (by omega), find?_ormChannel_some _ _ _ _ hrole hsome]
        simp only
        rw [if_neg hmismatch]

/-- Elements of a dict after insertion: the inserted pair or an old one. -/
lemma mem_dictInsert {α : Type} (k : String) (v : α) (d : List (String × α))
    (p : String × α) (h : p ∈ dictInsert k v d) : p = (k, v) ∨ p ∈ d := by
  induction d with
  | nil => simpa [dictInsert] using h
  | cons hd tl ih =>
    obtain ⟨k1, v1⟩ := hd
    unfold dictInsert at h
    by_cases hk : k1 = k
    · rw [if_pos hk] at h
      rcases List.mem_cons.mp h with h | h
      · exact Or.inl h
      · exact Or.inr (List.mem_cons_of_mem _ h)
    · rw [if_neg hk] at h
      rcases List.mem_cons.mp h with h | h
      · exact Or.inr (by simp [h])
      · rcases ih h with h | h
        · exact Or.inl h
        · exact Or.inr (List.mem_cons_of_mem _ h)

/-- Keys after a dict insertion: the inserted key or an old one. -/
lemma mem_keys_dictInsert {α : Type} (k a : String) (v : α)
    (d : List (String × α)) (h : a ∈ (dictInsert k v d).map Prod.fst) :
    a = k ∨ a ∈ d.map Prod.fst := by
  obtain ⟨p, hp, rfl⟩ := List.mem_map.mp h
  rcases mem_dictInsert k v d p hp with h | h
  · left
    rw [h]
  · right
    exact List.mem_map_of_mem _ h

/-- Dict insertion keeps the keys distinct. -/
lemma nodup_keys_dictInsert {α : Type} (k : String) (v : α)
    (d : List (String × α)) (h : (d.map Prod.fst).Nodup) :
    ((dictInsert k v d).map Prod.fst).Nodup := by
  induction d with
  | nil => simp [dictInsert]
  | cons hd tl ih =>
    obtain ⟨k1, v1⟩ := hd
    unfold dictInsert
    by_cases hk : k1 = k
    · rw [if_pos hk]
      subst hk
      simpa using h
    · rw [if_neg hk]
      simp only [List.map_cons, List.nodup_cons] at h ⊢
      refine ⟨fun hmem => ?_, ih h.2⟩
      rcases mem_keys_dictInsert k k1 v tl hmem with h1 | h1
      · exact hk h1
      · exact h.1 h1

/-- The invariant survives steps that leave `packable_candidates` alone and
only grow `textures`. -/
lemma analyzerInv_keep (st : AnalyzerState) (seen2 : List String)
    (tex2 packed2 : List TexInfo) (hsub : ∀ t, t ∈ st.textures → t ∈ tex2)
    (h : analyzerInv st) :
    analyzerInv { textures := tex2, packed := packed2, seen_images := seen2,
                  packable_candidates := st.packable_candidates } := by
  obtain ⟨h1, h2⟩ := h
  refine ⟨fun p hp => ?_, h2⟩
  obtain ⟨e1, e2, e3, e4⟩ := h1 p hp
  exact ⟨e1, e2, e3, hsub _ e4⟩

/-- The invariant survives inserting a direct packable slot keyed by its own
type while appending it to `textures`. -/
lemma analyzerInv_insert (st : AnalyzerState) (seen2 : List String)
    (tt : String) (ti2 : TexInfo) (hc : tt ∈ PACKABLE_TEXTURE_TYPES)
    (htt : ti2.texture_type = some tt) (hch : ti2.channels = [])
    (h : analyzerInv st) :
    analyzerInv { textures := st.textures ++ [ti2], packed := st.packed,
                  seen_images := seen2,
                  packable_candidates := dictInsert tt ti2 st.packable_candidates } := by
  obtain ⟨h1, h2⟩ := h
  refine ⟨fun p hp => ?_, nodup_keys_dictInsert tt ti2 _ h2⟩
  rcases mem_dictInsert tt ti2 _ p hp with rfl | hp2
  · exact ⟨htt, hc, hch, List.mem_append_right _ (List.mem_cons_self ..)⟩
  · obtain ⟨e1, e2, e3, e4⟩ := h1 p hp2
    exact ⟨e1, e2, e3, List.mem_append_left _ e4⟩

/-- The per-node analyzer step preserves the invariant. -/
lemma inv_processImageNode (env : Env) (ns : List ShaderNode)
    (st : AnalyzerState) (node : ShaderNode) (h : analyzerInv st) :
    analyzerInv (processImageNode env ns st node) := by
  simp only [processImageNode]
  split
  · exact h
  split
  · exact h
  rename_i img
  split
  · exact h
  split
  · exact analyzerInv_keep st _ _ _ (fun t ht => ht) h
  split
  · split
    · rename_i hcontains
      exact analyzerInv_insert st _ _ _
        (List.elem_iff.mp hcontains) rfl rfl h
    · exact analyzerInv_keep st _ _ _
        (fun t ht => List.mem_append_left _ ht) h
  · exact analyzerInv_keep st _ _ _
      (fun t ht => List.mem_append_left _ ht) h
  · exact analyzerInv_keep st _ _ _ (fun t ht => ht) h

/-- Folding an invariant-preserving step preserves the invariant. -/
lemma analyzerInv_foldl {α : Type} (f : AnalyzerState → α → AnalyzerState)
    (hf : ∀ s a, analyzerInv s → analyzerInv (f s a)) (l : List α)
    (s : AnalyzerState) (h : analyzerInv s) : analyzerInv (l.foldl f s) := by
  induction l generalizing s with
  | nil => exact h
  | cons a tl ih => exact ih (f s a) (hf s a h)

/-- The per-material analyzer step preserves the invariant. -/
lemma inv_processMaterial (env : Env) (st : AnalyzerState) (mat : Material)
    (h : analyzerInv st) : analyzerInv (processMaterial env st mat) := by
  unfold processMaterial
  split
  · exact h
  split
  · exact analyzerInv_foldl _ (fun s a => inv_processImageNode env mat.nodes s a)
      _ _ h
  · exact h

/-- The analyzer's whole fold satisfies the invariant. -/
lemma analyze_state_inv (env : Env) (objects : List BObject) :
    analyzerInv (objects.foldl
      (fun st obj =>
        obj.material_slots.foldl
          (fun st slotMat =>
            match slotMat with
            | none => st
            | some mat => processMaterial env st mat)
          st)
      ({} : AnalyzerState)) := by
  refine analyzerInv_foldl _ (fun s obj hs => ?_) _ _ ⟨by simp, by simp⟩
  refine analyzerInv_foldl _ (fun s2 slotMat hs2 => ?_) _ _ hs
  cases slotMat with
  | none => exact hs2
  | some mat => exact inv_processMaterial env s2 mat hs2

/-- C4 counterexample: a 64x64 AmbientOcclusion texture and a 32x32 Roughness
texture, both directly connected, are both placed in `packable` although
their pixel dimensions match no other listed slot — no dimension check is
performed. -/
theorem C4_dimension_cex :
    (analyze_material_textures envTrivial [objMismatch]).packable.map
        (fun ti => (ti.texture_type, ti.image.map (·.width),
          ti.image.map (·.height)))
      = [(some "AmbientOcclusion", some 64, some 64),
         (some "Roughness", some 32, some 32)] := rfl

/-- C4 (corrected). Every slot in `packable` is a direct (unpacked) slot
whose role is AmbientOcclusion, Roughness or Metallic, listed among the
analysis's direct textures, and `packable` is non-empty only when at least
two such roles are present; pixel dimensions are not checked by the
analyzer. -/
theorem C4_packable_roles (env : Env) (objects : List BObject) :
    (∀ ti ∈ (analyze_material_textures env objects).packable,
      ∃ r, ti.texture_type = some r ∧ r ∈ PACKABLE_TEXTURE_TYPES
        ∧ ti.channels = []
        ∧ ti ∈ (analyze_material_textures env objects).textures)
    ∧ ((analyze_material_textures env objects).packable ≠ []
        → ∃ t1 t2, t1 ∈ (analyze_material_textures env objects).packable
            ∧ t2 ∈ (analyze_material_textures env objects).packable
            ∧ t1.texture_type ≠ t2.texture_type) := by
  obtain ⟨hI, hND⟩ := analyze_state_inv env objects
  dsimp only [analyze_material_textures]
  constructor
  · intro ti hti
    split at hti
    · obtain ⟨p, hp, rfl⟩ := List.mem_map.mp hti
      obtain ⟨e1, e2, e3, e4⟩ := hI p hp
      exact ⟨p.1, e1, e2, e3, e4⟩
    · simp at hti
  · intro hne
    split at hne
    · rename_i hlen
      split
      · rename_i hlen2
        generalize hgen : (List.foldl
            (fun st obj =>
              obj.material_slots.foldl
                (fun st slotMat =>
                  match slotMat with
                  | none => st
                  | some mat => processMaterial env st mat)
                st)
            ({} : AnalyzerState) objects).packable_candidates = cands at hI hND hlen
        match cands with
        | [] => simp at hlen
        | [p1] => simp at hlen
        | p1 :: p2 :: tl =>
          refine ⟨p1.2, p2.2, ?_, ?_, ?_⟩
          · exact List.mem_map_of_mem _ (List.mem_cons_self ..)
          · exact List.mem_map_of_mem _
              (List.mem_cons_of_mem _ (List.mem_cons_self ..))
          · obtain ⟨e1, -, -, -⟩ := hI p1 (List.mem_cons_self ..)
            obtain ⟨f1, -, -, -⟩ := hI p2
              (List.mem_cons_of_mem _ (List.mem_cons_self ..))
            rw [e1, f1]
            simp only [List.map_cons, List.nodup_cons] at hND
            intro hcon
            exact hND.1 (by rw [Option.some.inj hcon]; exact List.mem_cons_self ..)
      · rename_i hlen2
        exact absurd hlen hlen2
    · exact absurd rfl hne

/-- C4 witness: the guarantees at the concrete mismatched-size scene. -/
theorem C4_packable_roles_witness :
    (∀ ti ∈ (analyze_material_textures envTrivial [objMismatch]).packable,
      ∃ r, ti.texture_type = some r ∧ r ∈ PACKABLE_TEXTURE_TYPES
        ∧ ti.channels = []
        ∧ ti ∈ (analyze_material_textures envTrivial [objMismatch]).textures)
    ∧ ((analyze_material_textures envTrivial [objMismatch]).packable ≠ []
        → ∃ t1 t2,
            t1 ∈ (analyze_material_textures envTrivial [objMismatch]).packable
            ∧ t2 ∈ (analyze_material_textures envTrivial [objMismatch]).packable
            ∧ t1.texture_type ≠ t2.texture_type) :=
  C4_packable_roles envTrivial [objMismatch]

/-- C5 counterexample: an image texture whose outgoing links yield no
recognized shader connection (here: no links at all, with a filename the
keyword table would map to Roughness) is omitted from the analysis output
entirely — no filename-heuristic slot is produced. -/
theorem C5_unconnected_dropped_cex :
    analyze_material_textures envTrivial [objUnlinked]
      = { textures := [], packed := [], packable := [] } := rfl

/-- C5 (corrected). An image texture whose traced connections are empty is
only marked as seen by the analyzer: it contributes no slot to `textures`,
`packed` or `packable`; the filename-substring heuristic is not applied by
`analyze_material_textures`. -/
theorem C5_unconnected_only_seen (env : Env) (ns : List ShaderNode)
    (st : AnalyzerState) (node : ShaderNode) (img : BlenderImage)
    (h1 : node.ntype = "TEX_IMAGE") (h2 : node.image = some img)
    (h3 : st.seen_images.contains img.name = false)
    (h4 : imageConnections ns node = []) :
    processImageNode env ns st node
      = { st with seen_images := st.seen_images ++ [img.name] } := by
  have h3m : img.name ∉ st.seen_images := by simpa using h3
  simp [processImageNode, h1, h2, h3m, h4]

/-- C5 witness: the unconnected fixture node is only marked seen. -/
theorem C5_unconnected_only_seen_witness :
    processImageNode envTrivial matUnlinked.nodes {} texNodeUnlinked
      = { textures := [], packed := [], seen_images := ["wall_rough"],
          packable_candidates := [] } :=
  C5_unconnected_only_seen envTrivial matUnlinked.nodes {} texNodeUnlinked
    imgUnlinked rfl rfl rfl rfl

/-- C6 witness: the neutral-fill guarantee at the concrete 1x1 sources. -/
theorem C6_neutral_fill_witness :
    ∃ img, pack_textures_to_orm packList1 "packed_orm" = some img
      ∧ ∀ y x, y < img.height → x < img.width →
          (pixelAt img y x 3 = 1)
          ∧ ∀ c role, ormChannel role = some c →
              ((texturesByType packList1).lookup role = none
                  → pixelAt img y x c = 1)
              ∧ (∀ src, (texturesByType packList1).lookup role = some src
                  → ¬(src.width = img.width ∧ src.height = img.height)
                  → pixelAt img y x c = 1) :=
  C6_neutral_fill packList1 "packed_orm" (by decide)

end Modelibr
